import Mathlib

/-!
# Verification of the sbctool telemetry pipeline specification

Shallow embedding, in Lean 4, of the parts of `sbctool` (crates/sbctool/src)
that the specification's claims are about:

* the bounded shared log buffer of the terminal dashboard (`tui.rs`),
* the log collectors and their per-format line parsers (`log_collector.rs`,
  `ssh_session.rs`),
* the system-information collector and its field parsers (`system_info.rs`).

Rust strings are modelled as Lean `String`s; all string manipulation is
re-implemented here by structural recursion on the underlying character
lists, so that every definition is executable and concrete instances can be
settled by `decide` / `rfl`.  Remote command execution is modelled by an
oracle `exec : String → Except String String` mapping a command line to
either its trimmed output (`Except.ok`) or an error message (`Except.error`),
exactly the shape of the Rust `execute_command` helpers.
-/

namespace Sbctool

/-! ## String primitives (models of the Rust `str` methods used by the code) -/

/-- Model of Rust `str::split_whitespace` on character lists: splits on runs
of whitespace and drops empty fragments.  `acc` is the current (reversed)
in-progress word. -/
def splitWsAux : List Char → List Char → List (List Char)
  | [], acc => if acc.isEmpty then [] else [acc.reverse]
  | c :: rest, acc =>
    if c.isWhitespace then
      if acc.isEmpty then splitWsAux rest [] else acc.reverse :: splitWsAux rest []
    else splitWsAux rest (c :: acc)

/-- Model of Rust `str::split_whitespace`. -/
def splitWhitespace (s : String) : List String :=
  (splitWsAux s.data []).map String.mk

/-- Model of Rust `str::split(sep)` for a `char` separator: splits at every
occurrence, keeping empty fragments. -/
def splitChAux (sep : Char) : List Char → List Char → List (List Char)
  | [], acc => [acc.reverse]
  | c :: rest, acc =>
    if c == sep then acc.reverse :: splitChAux sep rest []
    else splitChAux sep rest (c :: acc)

/-- Model of Rust `str::split(sep)` for a `char` separator. -/
def splitOnCh (sep : Char) (s : String) : List String :=
  (splitChAux sep s.data []).map String.mk

/-- Model of Rust `str::splitn(n, sep)` for a `char` separator: at most `n`
fragments, the last fragment keeps the remaining separators. -/
def splitnChAux (sep : Char) : Nat → List Char → List Char → List (List Char)
  | _, [], acc => [acc.reverse]
  | n, c :: rest, acc =>
    if 1 < n && c == sep then acc.reverse :: splitnChAux sep (n - 1) rest []
    else splitnChAux sep n rest (c :: acc)

/-- Model of Rust `str::splitn(n, sep)` for a `char` separator. -/
def splitnCh (n : Nat) (sep : Char) (s : String) : List String :=
  if n = 0 then [] else (splitnChAux sep n s.data []).map String.mk

/-- `str::find(c)` followed by slicing: the text before the first occurrence
of `c` and the text after it, or `none` when `c` does not occur. -/
def breakAtFirst (sep : Char) : List Char → Option (List Char × List Char)
  | [] => none
  | c :: rest =>
    if c == sep then some ([], rest)
    else (breakAtFirst sep rest).map (fun p => (c :: p.1, p.2))

/-- Model of Rust `str::trim` (drops leading and trailing whitespace). -/
def rustTrim (s : String) : String :=
  ⟨((s.data.dropWhile Char.isWhitespace).reverse.dropWhile Char.isWhitespace).reverse⟩

/-- Model of Rust `str::trim_end_matches(c)`: drops every trailing `c`. -/
def trimEndMatchesCh (c : Char) (s : String) : String :=
  ⟨(s.data.reverse.dropWhile (· == c)).reverse⟩

/-- Model of Rust `str::trim_matches(c)`: drops every leading and trailing
`c`. -/
def trimMatchesCh (c : Char) (s : String) : String :=
  ⟨((s.data.dropWhile (· == c)).reverse.dropWhile (· == c)).reverse⟩

/-- Model of Rust `str::starts_with(p)`. -/
def rustStartsWith (s p : String) : Bool :=
  p.data.isPrefixOf s.data

/-- ASCII upper-casing, the effect of Rust `str::to_uppercase` on the ASCII
log lines this program handles. -/
def asciiUpper (s : String) : String := ⟨s.data.map Char.toUpper⟩

/-- ASCII lower-casing, the effect of Rust `str::to_lowercase` on the ASCII
log lines this program handles. -/
def asciiLower (s : String) : String := ⟨s.data.map Char.toLower⟩

/-- `l` starts with `p`, on character lists. -/
def isPrefixL : List Char → List Char → Bool
  | [], _ => true
  | _ :: _, [] => false
  | a :: as, b :: bs => a == b && isPrefixL as bs

/-- `pat` occurs as a contiguous substring of `l`. -/
def hasInfixL (pat : List Char) : List Char → Bool
  | [] => isPrefixL pat []
  | l@(_ :: t) => isPrefixL pat l || hasInfixL pat t

/-- Model of Rust `str::contains(pat)` for a string pattern. -/
def containsStr (s pat : String) : Bool := hasInfixL pat.data s.data

/-- Model of Rust `str::replace(from, to)` for single characters (used with
`replace('\0', " ")`, whose replacement is one character long). -/
def replaceCh (old new : Char) (s : String) : String :=
  ⟨s.data.map (fun c => if c == old then new else c)⟩

/-- Model of Rust `str::lines` with the trailing-newline convention: the
final line break is optional and `"\r\n"` breaks also drop the `'\r'`. -/
def stripCr (s : String) : String :=
  match s.data.getLast? with
  | some '\r' => ⟨s.data.dropLast⟩
  | _ => s

/-- Applies `f` to every element except the last one. -/
def mapExceptLast (f : α → α) : List α → List α
  | [] => []
  | [x] => [x]
  | x :: y :: rest => f x :: mapExceptLast f (y :: rest)

/-- Model of Rust `str::lines`. -/
def rustLines (s : String) : List String :=
  let parts := (splitChAux '\n' s.data []).map String.mk
  if s.data.getLast? = some '\n' then parts.dropLast.map stripCr
  else mapExceptLast stripCr parts

/-- Decimal value of a digit list (the accumulation the numeric parsers
share). -/
def digitsToNat (l : List Char) : Nat :=
  l.foldl (fun n c => n * 10 + (c.toNat - '0'.toNat)) 0

/-- One optional leading `'+'`, which Rust integer parsing accepts. -/
def dropLeadPlus : List Char → List Char
  | [] => []
  | c :: rest => if c == '+' then rest else c :: rest

/-- Model of Rust `"...".parse::<u64>()`: an optional leading `'+'`
followed by one or more digits, value bounded by `u64::MAX` — overflow is
a parse error (`Err`), which the meminfo caller collapses to 0 with
`unwrap_or(0)`. -/
def parse_u64? (s : String) : Option Nat :=
  let ds := dropLeadPlus s.data
  if ds ≠ [] ∧ ds.all Char.isDigit ∧ digitsToNat ds < 2 ^ 64 then
    some (digitsToNat ds)
  else none

/-- Model of Rust `String::from` of joining fragments with a separator
(`[..].join(sep)`). -/
def joinSep (sep : String) : List String → String
  | [] => ""
  | [x] => x
  | x :: y :: rest => x ++ sep ++ joinSep sep (y :: rest)

/-! ## Data model (`tui.rs`) -/

/-- `tui.rs` `LogEntry`: timestamp string, level string, message. -/
structure LogEntry where
  timestamp : String
  level : String
  message : String
deriving DecidableEq

/-- `tui.rs` `SystemInfo`: one immutable snapshot of the remote machine. -/
structure SystemInfo where
  hostname : String
  kernel : String
  architecture : String
  chip : Option String
  cpu_info : String
  memory : String
  uptime : String
  os_info : String
deriving DecidableEq

/-- `TuiApp::add_log` (tui.rs): push the entry, then, when the buffer
exceeds 100 entries, drain the oldest entries down to the newest 100. -/
def add_log (logs : List LogEntry) (entry : LogEntry) : List LogEntry :=
  let logs := logs ++ [entry]
  if logs.length > 100 then logs.drop (logs.length - 100) else logs

/-- A whole sequence of `add_log` calls starting from buffer `init`. -/
def add_log_all (init : List LogEntry) (entries : List LogEntry) : List LogEntry :=
  entries.foldl add_log init

/-! ## Log line parsers (`log_collector.rs`, `ssh_session.rs`) -/

/-- `LogCollector::parse_android_log_line`: expects
`MM-DD HH:MM:SS.fff PID TID LEVEL TAG: MESSAGE`; fewer than 6
whitespace-separated tokens is rejected; the level is token 4 upper-cased
verbatim, the message joins the remaining tokens. -/
def parse_android_log_line (line : String) : Option LogEntry :=
  let parts := splitWhitespace line
  if parts.length < 6 then none
  else
    some { timestamp := parts.getD 0 "" ++ " " ++ parts.getD 1 ""
           level := asciiUpper (parts.getD 4 "")
           message := joinSep " " (parts.drop 5) }

/-- `LogCollector::parse_journald_log_line` (short-iso polling format):
timestamp is the text before the first space; the message is the trimmed
text after the first colon of the rest; the level comes from a
case-insensitive keyword scan of the message. -/
def parse_journald_log_line (line : String) : Option LogEntry :=
  match breakAtFirst ' ' line.data with
  | none => none
  | some (tsPart, rest) =>
    match breakAtFirst ':' rest with
    | none => none
    | some (_servicePart, rawMsg) =>
      let message := rustTrim ⟨rawMsg⟩
      let low := asciiLower message
      let level :=
        if containsStr low "error" then "ERROR"
        else if containsStr low "warn" then "WARN"
        else if containsStr low "info" then "INFO"
        else "DEBUG"
      some { timestamp := ⟨tsPart⟩, level := level, message := message }

/-- `LogCollector::parse_syslog_line`: expects
`MMM DD HH:MM:SS HOSTNAME SERVICE: MESSAGE`; fewer than 6 tokens is
rejected; the level keyword scan runs on the joined message (without the
service name), and the stored message is re-prefixed with the service. -/
def parse_syslog_line (line : String) : Option LogEntry :=
  let parts := splitWhitespace line
  if parts.length < 6 then none
  else
    let timestamp := parts.getD 0 "" ++ " " ++ parts.getD 1 "" ++ " " ++ parts.getD 2 ""
    let service := trimEndMatchesCh ':' (parts.getD 4 "")
    let message := joinSep " " (parts.drop 5)
    let low := asciiLower message
    let level :=
      if containsStr low "error" then "ERROR"
      else if containsStr low "warn" then "WARN"
      else if containsStr low "info" then "INFO"
      else "DEBUG"
    some { timestamp := timestamp, level := level
           message := service ++ ": " ++ message }

/-- `SSHSession::parse_journald_log_line` (streaming `journalctl -f` form):
split into at most 3 fields; the timestamp is the substring of field 0
between the `'T'` separator and the `'+'` timezone offset; the keyword set
additionally recognises `fail`, `warning`, `start`, `started`, `debug`,
with an `UNKNOWN` fallback. -/
def parse_journald_stream_line (line : String) : Option LogEntry :=
  let parts := splitnCh 3 ' ' line
  if parts.length < 3 then none
  else
    let timestamp :=
      (splitOnCh '+' ((splitOnCh 'T' (parts.getD 0 "")).getD 1 "")).getD 0 ""
    let message := parts.getD 2 ""
    let low := asciiLower message
    let level :=
      if containsStr low "error" || containsStr low "fail" then "ERROR"
      else if containsStr low "warn" || containsStr low "warning" then "WARN"
      else if containsStr low "info" || containsStr low "start" || containsStr low "started" then "INFO"
      else if containsStr low "debug" then "DEBUG"
      else "UNKNOWN"
    some { timestamp := timestamp, level := level, message := message }

/-! ## Collector loop bodies (`log_collector.rs`)

Each `get_*_logs` body runs `for line in output.lines() { if let Some(e) =
parse(line) { logs.push(e) } }`; that loop is embedded literally as a left
fold that pushes onto the end of the vector. -/

/-- The `for`/`push` line loop shared by the three `get_*_logs` bodies. -/
def parseLinesLoop (parse : String → Option LogEntry) (output : String) : List LogEntry :=
  (rustLines output).foldl
    (fun logs line =>
      match parse line with
      | some e => logs ++ [e]
      | none => logs) []

/-- `LogCollector::get_android_logs`, given the `logcat -d -v time` output:
parse every line, then `logs.reverse(); logs.truncate(20)`. -/
def get_android_logs (output : String) : List LogEntry :=
  ((parseLinesLoop parse_android_log_line output).reverse).take 20

/-- `LogCollector::get_journald_logs`, given the `journalctl … -n 20` output. -/
def get_journald_logs (output : String) : List LogEntry :=
  parseLinesLoop parse_journald_log_line output

/-- The fixed candidate list of legacy syslog files (`get_syslog_logs`). -/
def syslog_paths : List String :=
  ["/var/log/syslog", "/var/log/messages", "/var/log/kern.log"]

/-- `LogCollector::get_syslog_logs`: tail the first candidate file whose
command succeeds and yields at least one parseable line; error otherwise. -/
def get_syslog_logs_go (exec : String → Except String String) :
    List String → Except String (List LogEntry)
  | [] => Except.error "No syslog files found"
  | path :: rest =>
    match exec ("tail -n 20 " ++ path) with
    | Except.error _ => get_syslog_logs_go exec rest
    | Except.ok output =>
      let logs := parseLinesLoop parse_syslog_line output
      if logs.isEmpty then get_syslog_logs_go exec rest else Except.ok logs

/-- `LogCollector::get_syslog_logs` over the fixed path list. -/
def get_syslog_logs (exec : String → Except String String) :
    Except String (List LogEntry) :=
  get_syslog_logs_go exec syslog_paths

/-! ### One polling cycle and the collector loop

`collect_android_logs` / `collect_journald_logs` / `collect_syslog_logs`
all have the shape

```text
loop {
    match get_xxx_logs().await {
        Ok(logs) => for log in logs { sender.push(log) },
        Err(e)   => sender.push(LogEntry { now, "ERROR", format!(prefix, e) }),
    }
    sleep(interval).await;
}
```

A cycle outcome is the `Result` of the inner `get_xxx_logs` call; the loop
is embedded as a total fold over an arbitrary finite trace of outcomes (the
`loop` has no `break`, so every trace, of any length and any mix of
successes and failures, is processed in full).  The mutex acquisition
`log_sender.lock()` is modelled as always succeeding (it only fails after a
panic poisoned the lock), and `chrono::Local::now()` is the parameter
`now`. -/

/-- Outcome of one `get_xxx_logs` call inside a collector cycle. -/
inductive CycleResult where
  | ok (logs : List LogEntry)
  | err (msg : String)
deriving DecidableEq

/-- One iteration of a collector loop body: successes push every parsed
entry in order, a failure pushes the single synthetic error entry built
from the collector's message prefix. -/
def cycle_step (errPrefix now : String) (buf : List LogEntry) :
    CycleResult → List LogEntry
  | CycleResult.ok logs => buf ++ logs
  | CycleResult.err e =>
    buf ++ [{ timestamp := now, level := "ERROR", message := errPrefix ++ e }]

/-- The collector loop run over a finite trace of cycle outcomes. -/
def collect_run (errPrefix now : String) (outcomes : List CycleResult)
    (buf : List LogEntry) : List LogEntry :=
  outcomes.foldl (cycle_step errPrefix now) buf

/-- Error-message prefix of `collect_android_logs`. -/
def android_err_prefix : String := "Failed to get Android logs: "

/-- Error-message prefix of `collect_journald_logs`. -/
def journald_err_prefix : String := "Failed to get journald logs: "

/-- Error-message prefix of `collect_syslog_logs`. -/
def syslog_err_prefix : String := "Failed to get syslog: "

/-- Number of entries one cycle pushes into the shared buffer. -/
def cycle_weight : CycleResult → Nat
  | CycleResult.ok logs => logs.length
  | CycleResult.err _ => 1

/-! ## System-information parsers (`system_info.rs`) -/

/-- `SystemInfoCollector::parse_chip_from_compatible`: replace NUL bytes by
spaces, then match the vendor/SoC patterns in the source's fixed order
(`rk3399` before `rk3568` before `rk3588`, …). -/
def parse_chip_from_compatible (compatible : String) : Option String :=
  let compatible := replaceCh '\x00' ' ' compatible
  if containsStr compatible "rockchip" then
    if containsStr compatible "rk3399" then some "Rockchip RK3399"
    else if containsStr compatible "rk3568" then some "Rockchip RK3568"
    else if containsStr compatible "rk3588" then some "Rockchip RK3588"
    else some "Rockchip"
  else if containsStr compatible "amlogic" then
    if containsStr compatible "g12" then some "Amlogic G12"
    else if containsStr compatible "s905" then some "Amlogic S905"
    else if containsStr compatible "s922" then some "Amlogic S922"
    else some "Amlogic"
  else if containsStr compatible "allwinner" then some "Allwinner"
  else if containsStr compatible "broadcom" then some "Broadcom"
  else if containsStr compatible "qualcomm" then some "Qualcomm"
  else if containsStr compatible "nvidia" then some "Nvidia Jetson"
  else none

/-- Line scan of `SystemInfoCollector::parse_chip_from_cpuinfo`: the first
line that triggers a `return` wins — a `Hardware` line with a non-empty
value other than `BCM2835`, or a `CPU implementer` line with code
`0x41`/`0x42`/`0x51`. -/
def parse_chip_from_cpuinfo_lines : List String → Option String
  | [] => none
  | line :: rest =>
    if rustStartsWith line "Hardware" then
      let parts := splitOnCh ':' line
      if parts.length > 1 then
        let hardware := rustTrim (parts.getD 1 "")
        if hardware ≠ "" ∧ hardware ≠ "BCM2835" then some hardware
        else parse_chip_from_cpuinfo_lines rest
      else parse_chip_from_cpuinfo_lines rest
    else if rustStartsWith line "CPU implementer" then
      let parts := splitOnCh ':' line
      if parts.length > 1 then
        match rustTrim (parts.getD 1 "") with
        | "0x41" => some "ARM"
        | "0x42" => some "Broadcom"
        | "0x51" => some "Qualcomm"
        | _ => parse_chip_from_cpuinfo_lines rest
      else parse_chip_from_cpuinfo_lines rest
    else parse_chip_from_cpuinfo_lines rest

/-- `SystemInfoCollector::parse_chip_from_cpuinfo`. -/
def parse_chip_from_cpuinfo (cpuinfo : String) : Option String :=
  parse_chip_from_cpuinfo_lines (rustLines cpuinfo)

/-- `SystemInfoCollector::parse_chip_from_batch_results`: device-tree model
first (unless empty or the probe's `No model` fallback echo), then the
`compatible` string, then `cpuinfo`. -/
def parse_chip_from_batch_results (model compatible cpuinfo : String) :
    Option String :=
  if rustTrim model ≠ "" ∧ rustTrim model ≠ "No model" then
    some (rustTrim model)
  else if rustTrim compatible ≠ "" ∧ rustTrim compatible ≠ "No compatible" then
    match parse_chip_from_compatible (rustTrim compatible) with
    | some chip => some chip
    | none => parse_chip_from_cpuinfo cpuinfo
  else parse_chip_from_cpuinfo cpuinfo

/-- First `model name`/`Processor` line value of a cpuinfo dump
(first loop of `parse_cpu_from_cpuinfo`). -/
def cpuinfo_first_model : List String → Option String
  | [] => none
  | line :: rest =>
    if rustStartsWith line "model name" || rustStartsWith line "Processor" then
      let parts := splitOnCh ':' line
      if parts.length > 1 then some (rustTrim (parts.getD 1 ""))
      else cpuinfo_first_model rest
    else cpuinfo_first_model rest

/-- Accumulating scan of the second loop of `parse_cpu_from_cpuinfo`:
last `CPU implementer` value, last `CPU architecture` value, and the number
of `processor` lines. -/
def cpuinfo_scan (lines : List String) : Option String × Option String × Nat :=
  lines.foldl
    (fun acc line =>
      let (im, arch, count) := acc
      if rustStartsWith line "processor" then (im, arch, count + 1)
      else if rustStartsWith line "CPU implementer" then
        let parts := splitOnCh ':' line
        if parts.length > 1 then (some (rustTrim (parts.getD 1 "")), arch, count)
        else acc
      else if rustStartsWith line "CPU architecture" then
        let parts := splitOnCh ':' line
        if parts.length > 1 then (im, some (rustTrim (parts.getD 1 "")), count)
        else acc
      else acc)
    (none, none, 0)

/-- `SystemInfoCollector::parse_cpu_from_cpuinfo` (the sequential
`get_cpu_info` has the identical body after its `execute_command` call). -/
def parse_cpu_from_cpuinfo (cpuinfo : String) : String :=
  let lines := rustLines cpuinfo
  match cpuinfo_first_model lines with
  | some m => m
  | none =>
    let (im, arch, count) := cpuinfo_scan lines
    let desc :=
      match im with
      | some code =>
        match code with
        | "0x41" => "ARM"
        | "0x42" => "Broadcom"
        | "0x51" => "Qualcomm"
        | _ => "Unknown"
      | none => ""
    let desc :=
      match arch with
      | some a => (if desc = "" then desc else desc ++ " ") ++ "v" ++ a
      | none => desc
    let desc :=
      if count > 0 then
        (if desc = "" then desc else desc ++ " ") ++ "(" ++ toString count ++ " cores)"
      else desc
    if desc = "" then toString count ++ " cores" else desc

/-- The `mb`/`gb` bucketing shared by the memory parsers:
kB to whole GB when at least one whole GB fits, else whole MB. -/
def format_mem_kb (kb : Nat) : String :=
  let mb := kb / 1024
  let gb := mb / 1024
  if gb > 0 then toString gb ++ " GB" else toString mb ++ " MB"

/-- Line scan of `SystemInfoCollector::parse_memory_from_meminfo`:
first `MemTotal` line with a second token wins; an unparseable token
defaults to 0 (`unwrap_or(0)`). -/
def parse_memory_from_meminfo_lines : List String → String
  | [] => "Unknown"
  | line :: rest =>
    if rustStartsWith line "MemTotal" then
      let parts := splitWhitespace line
      if parts.length > 1 then format_mem_kb ((parse_u64? (parts.getD 1 "")).getD 0)
      else parse_memory_from_meminfo_lines rest
    else parse_memory_from_meminfo_lines rest

/-- `SystemInfoCollector::parse_memory_from_meminfo` (the sequential
`get_memory_info` Linux branch has the identical body). -/
def parse_memory_from_meminfo (meminfo : String) : String :=
  parse_memory_from_meminfo_lines (rustLines meminfo)

/-- A non-negative decimal number `num / den` with `den` a power of ten:
the exact value of the `f64` the Rust code parses out of `/proc/uptime`.
The `f64` division/remainder/truncation chain of the source is exact for
such inputs in the ranges that occur, so the model computes with the exact
rational value. -/
structure DecNum where
  num : Nat
  den : Nat
deriving DecidableEq

/-- Model of `"...".parse::<f64>()` restricted to plain decimal literals
(`123`, `123.45`): other `f64` syntax (signs, exponents, `inf`) never
appears in `/proc/uptime`. -/
def parse_f64_decimal? (s : String) : Option DecNum :=
  match splitOnCh '.' s with
  | [w] =>
    if w.data ≠ [] ∧ w.data.all Char.isDigit then some ⟨digitsToNat w.data, 1⟩
    else none
  | [w, f] =>
    if (w.data ≠ [] ∨ f.data ≠ []) ∧ w.data.all Char.isDigit ∧ f.data.all Char.isDigit then
      some ⟨digitsToNat w.data * 10 ^ f.data.length + digitsToNat f.data,
            10 ^ f.data.length⟩
    else none
  | _ => none

/-- The `{d}d {h}h {m}m` assembly of the uptime parsers: days omitted when
zero, hours omitted when days and hours are both zero. -/
def format_uptime (days hours minutes : Nat) : String :=
  if days > 0 then
    toString days ++ "d " ++ toString hours ++ "h " ++ toString minutes ++ "m"
  else if hours > 0 then toString hours ++ "h " ++ toString minutes ++ "m"
  else toString minutes ++ "m"

/-- `SystemInfoCollector::parse_uptime_from_proc` (the sequential
`get_uptime` Linux branch has the identical body): first whitespace token,
parsed as a number of seconds; `days = ⌊s/86400⌋`,
`hours = ⌊(s mod 86400)/3600⌋`, `minutes = ⌊(s mod 3600)/60⌋`, computed
here exactly over `num/den`. -/
def parse_uptime_from_proc (uptime : String) : String :=
  match (splitWhitespace uptime).head? with
  | none => "Unknown"
  | some secondsStr =>
    match parse_f64_decimal? secondsStr with
    | none => "Unknown"
    | some d =>
      let days := d.num / (86400 * d.den)
      let hours := d.num % (86400 * d.den) / (3600 * d.den)
      let minutes := d.num % (3600 * d.den) / (60 * d.den)
      format_uptime days hours minutes

/-- The `KEY=value` line scan shared (textually duplicated in the source)
by `parse_os_from_release` and the keyed branch of `get_os_info`: first
line starting with `key` and containing a `'='` wins; the value is the
second `'='`-fragment with surrounding `'"'` stripped. -/
def find_key_value (key : String) : List String → Option String
  | [] => none
  | line :: rest =>
    if rustStartsWith line key then
      let parts := splitOnCh '=' line
      if parts.length > 1 then some (trimMatchesCh '"' (parts.getD 1 ""))
      else find_key_value key rest
    else find_key_value key rest

/-- `SystemInfoCollector::parse_os_from_release`: `PRETTY_NAME` from the
os-release output, else `"Unknown"` — the batch strategy consults no other
source. -/
def parse_os_from_release (os_release : String) : String :=
  match find_key_value "PRETTY_NAME" (rustLines os_release) with
  | some v => v
  | none => "Unknown"

/-- The `(command, key)` source list of the sequential `get_os_info`
(Linux branch). -/
def os_sources : List (String × String) :=
  [("cat /etc/os-release", "PRETTY_NAME"),
   ("cat /etc/lsb-release", "DISTRIB_DESCRIPTION"),
   ("uname -o", "")]

/-- Source loop of the sequential `get_os_info`: an empty key returns the
trimmed whole output, a named key returns the first matching `KEY=value`
line; a failed command or a missing key falls through to the next source. -/
def get_os_info_go (exec : String → Except String String) :
    List (String × String) → String
  | [] => "Unknown"
  | (cmd, key) :: rest =>
    match exec cmd with
    | Except.error _ => get_os_info_go exec rest
    | Except.ok output =>
      if key = "" then rustTrim output
      else
        match find_key_value key (rustLines output) with
        | some v => v
        | none => get_os_info_go exec rest

/-- `SystemInfoCollector::get_os_info` (Linux branch; the source returns
`Result` but this branch only ever returns `Ok`). -/
def get_os_info (exec : String → Except String String) : String :=
  get_os_info_go exec os_sources

/-- cpuinfo fallback tier of the sequential `get_chip_info`. -/
def get_chip_info_cpuinfo_step (exec : String → Except String String) :
    Option String :=
  match exec "cat /proc/cpuinfo" with
  | Except.ok ci => parse_chip_from_cpuinfo ci
  | Except.error _ => none

/-- `compatible` tier of the sequential `get_chip_info`; every miss falls
through to the cpuinfo tier. -/
def get_chip_info_compatible_step (exec : String → Except String String) :
    Option String :=
  match exec "cat /proc/device-tree/compatible 2>/dev/null" with
  | Except.ok c =>
    if rustTrim c ≠ "" ∧ rustTrim c ≠ "No compatible" then
      match parse_chip_from_compatible (rustTrim c) with
      | some chip => some chip
      | none => get_chip_info_cpuinfo_step exec
    else get_chip_info_cpuinfo_step exec
  | Except.error _ => get_chip_info_cpuinfo_step exec

/-- Sequential `SystemInfoCollector::get_chip_info` (Linux branch),
composed with the `.ok()` applied by its only caller: `none` both when the
final `Err("Could not determine chip information")` is reached and when no
tier matches. -/
def get_chip_info (exec : String → Except String String) : Option String :=
  match exec "cat /proc/device-tree/model 2>/dev/null" with
  | Except.ok m =>
    if rustTrim m ≠ "" ∧ rustTrim m ≠ "No model" then some (rustTrim m)
    else get_chip_info_compatible_step exec
  | Except.error _ => get_chip_info_compatible_step exec

/-! ## The two collection strategies (`system_info.rs`) -/

/-- `SystemInfoCollector::collect_system_info_sequential` (SSH/Linux
branch).  `uname -a` and `hostname` failures abort with `?`; every other
probe degrades (`.ok()` / `unwrap_or_else(|_| "Unknown")`).  The source
indexes `parts[0]` unconditionally in the `else` branch of the kernel
computation, which panics when the `uname` output has no whitespace
tokens: that abort is modelled as the outer `none` (`some` carries the
`Result` the function returns when it does not panic). -/
def collect_system_info_sequential (exec : String → Except String String) :
    Option (Except String SystemInfo) :=
  match exec "uname -a" with
  | Except.error e => some (Except.error e)
  | Except.ok uname_output =>
    match exec "hostname" with
    | Except.error e => some (Except.error e)
    | Except.ok host0 =>
      let parts := splitWhitespace uname_output
      if parts = [] then none
      else
        let kernel :=
          if parts.length > 2 then parts.getD 0 "" ++ " " ++ parts.getD 2 ""
          else parts.getD 0 ""
        let architecture :=
          if parts.length > 12 then parts.getD 12 "" else "unknown"
        some (Except.ok
          { hostname := rustTrim host0
            kernel := kernel
            architecture := architecture
            chip := get_chip_info exec
            cpu_info :=
              match exec "cat /proc/cpuinfo" with
              | Except.ok s => parse_cpu_from_cpuinfo s
              | Except.error _ => "Unknown"
            memory :=
              match exec "cat /proc/meminfo" with
              | Except.ok s => parse_memory_from_meminfo s
              | Except.error _ => "Unknown"
            uptime :=
              match exec "cat /proc/uptime" with
              | Except.ok s => parse_uptime_from_proc s
              | Except.error _ => "Unknown"
            os_info := get_os_info exec })

/-- The eight fixed probe commands of `collect_system_info_batch`. -/
def batch_commands : List String :=
  ["uname -a",
   "hostname",
   "cat /proc/device-tree/model 2>/dev/null || echo \x27No model\x27",
   "cat /proc/device-tree/compatible 2>/dev/null || echo \x27No compatible\x27",
   "cat /proc/cpuinfo",
   "cat /proc/meminfo",
   "cat /proc/uptime",
   "cat /etc/os-release 2>/dev/null || echo \x27No os-release\x27"]

/-- `SSHSession::execute_multiple_commands`: runs every command, replacing
a failed command's output by the text `Error: <message>`; the call itself
always returns `Ok`. -/
def execute_multiple_commands (exec : String → Except String String)
    (cmds : List String) : List String :=
  cmds.map fun c =>
    match exec c with
    | Except.ok out => out
    | Except.error e => "Error: " ++ e

/-- Field assembly of `collect_system_info_batch` from the eight results.
The same `parts[0]` indexing as the sequential strategy panics when
`results[0]` has no whitespace tokens, modelled as `none` (the callers
always supply exactly eight results, one per `batch_commands` entry). -/
def collect_system_info_batch (results : List String) : Option SystemInfo :=
  let uname_output := results.getD 0 ""
  let parts := splitWhitespace uname_output
  if parts = [] then none
  else
    some
      { hostname := rustTrim (results.getD 1 "")
        kernel :=
          if parts.length > 2 then parts.getD 0 "" ++ " " ++ parts.getD 2 ""
          else parts.getD 0 ""
        architecture := if parts.length > 12 then parts.getD 12 "" else "unknown"
        chip := parse_chip_from_batch_results (results.getD 2 "") (results.getD 3 "")
          (results.getD 4 "")
        cpu_info := parse_cpu_from_cpuinfo (results.getD 4 "")
        memory := parse_memory_from_meminfo (results.getD 5 "")
        uptime := parse_uptime_from_proc (results.getD 6 "")
        os_info := parse_os_from_release (results.getD 7 "") }

/-- The batched strategy end to end: issue the eight probes through the
transport and assemble the snapshot.  `execute_multiple_commands` never
returns an error, so short of the `parts[0]` panic the batch always
produces a snapshot. -/
def collect_system_info_batch_via (exec : String → Except String String) :
    Option SystemInfo :=
  collect_system_info_batch (execute_multiple_commands exec batch_commands)

/-- `SystemInfoCollector::collect_system_info`: batched when a persistent
session exists, sequential otherwise (outer `none` models the `parts[0]`
panic of either strategy). -/
def collect_system_info (hasSession : Bool)
    (exec : String → Except String String) : Option (Except String SystemInfo) :=
  if hasSession then (collect_system_info_batch_via exec).map Except.ok
  else collect_system_info_sequential exec

/-! ## Concrete transport oracles used by witnesses and counterexamples -/

/-- Transport oracle with exactly one syslog candidate file available. -/
def c3_syslog_exec : String → Except String String := fun c =>
  if c = "tail -n 20 /var/log/syslog" then
    Except.ok "Sep  5 18:49:25 host systemd: error in unit"
  else Except.error "no file"

/-- Transport oracle where only `uname -a` and `hostname` succeed. -/
def c2_exec : String → Except String String := fun c =>
  if c = "uname -a" then Except.ok "Linux sbc1 5.10.0"
  else if c = "hostname" then Except.ok "sbc1"
  else Except.error "target unreachable"

/-- Transport oracle matching the spec's end-to-end vector: a 13-token
`uname -a` output with `aarch64` as 13th token, hostname `sbc1`, all other
probes failing. -/
def c9_exec : String → Except String String := fun c =>
  if c = "uname -a" then
    Except.ok "Linux sbc1 5.10.0 #1 SMP PREEMPT Thu Jan 1 00:00:00 UTC 2021 aarch64 GNU/Linux"
  else if c = "hostname" then Except.ok "sbc1"
  else Except.error "unavailable"

/-- Transport oracle where the os-release file is missing (the batch probe
echoes its `No os-release` fallback, the plain sequential probe fails) but
the legacy lsb-release file carries a distribution description. -/
def c10_exec : String → Except String String := fun c =>
  if c = "cat /etc/os-release 2>/dev/null || echo \x27No os-release\x27" then
    Except.ok "No os-release"
  else if c = "cat /etc/lsb-release" then
    Except.ok "DISTRIB_DESCRIPTION=\"Ubuntu 22.04 LTS\""
  else Except.error "probe failed"

/-- Value of the os-release tier of the OS fallback chain: the
`PRETTY_NAME` entry when the command succeeds and the key is present. -/
def os_release_tier (exec : String → Except String String) : Option String :=
  match exec "cat /etc/os-release" with
  | Except.ok out => find_key_value "PRETTY_NAME" (rustLines out)
  | Except.error _ => none

/-- Value of the legacy lsb-release tier of the OS fallback chain. -/
def lsb_release_tier (exec : String → Except String String) : Option String :=
  match exec "cat /etc/lsb-release" with
  | Except.ok out => find_key_value "DISTRIB_DESCRIPTION" (rustLines out)
  | Except.error _ => none

/-- Value of the `uname -o` tier of the OS fallback chain: the trimmed
output whenever the command succeeds. -/
def uname_o_tier (exec : String → Except String String) : Option String :=
  match exec "uname -o" with
  | Except.ok out => some (rustTrim out)
  | Except.error _ => none

/-! ## Helper lemmas -/

/-- Folding `add_log` from the empty buffer keeps exactly the newest 100
entries: the result is the input minus its oldest `length - 100` entries. -/
theorem add_log_all_drop (entries : List LogEntry) :
    add_log_all [] entries = entries.drop (entries.length - 100) := by
  induction entries using List.reverseRecOn with
  | nil => rfl
  | append_singleton xs x ih =>
    have hfold : add_log_all [] (xs ++ [x]) = add_log (add_log_all [] xs) x := by
      simp [add_log_all, List.foldl_append]
    rw [hfold, ih]
    show (if (xs.drop (xs.length - 100) ++ [x]).length > 100
        then (xs.drop (xs.length - 100) ++ [x]).drop
          ((xs.drop (xs.length - 100) ++ [x]).length - 100)
        else xs.drop (xs.length - 100) ++ [x]) =
      (xs ++ [x]).drop ((xs ++ [x]).length - 100)
    by_cases h : xs.length ≤ 99
    · have e1 : xs.length - 100 = 0 := by omega
      rw [e1, List.drop_zero]
      have hc : ¬ ((xs ++ [x]).length > 100) := by
        simp only [List.length_append, List.length_cons, List.length_nil]
        omega
      rw [if_neg hc]
      have e2 : (xs ++ [x]).length - 100 = 0 := by
        simp only [List.length_append, List.length_cons, List.length_nil]
        omega
      rw [e2, List.drop_zero]
    · push_neg at h
      have hd : (xs.drop (xs.length - 100)).length = 100 := by
        rw [List.length_drop]; omega
      have hc : (xs.drop (xs.length - 100) ++ [x]).length > 100 := by
        simp only [List.length_append, hd, List.length_cons, List.length_nil]
        omega
      rw [if_pos hc]
      have e3 : (xs.drop (xs.length - 100) ++ [x]).length - 100 = 1 := by
        simp only [List.length_append, hd, List.length_cons, List.length_nil]
      rw [e3, List.drop_append_of_le_length (by rw [hd]; omega), List.drop_drop]
      have e4 : (xs ++ [x]).length - 100 = xs.length + 1 - 100 := by
        simp only [List.length_append, List.length_cons, List.length_nil]
      rw [e4, List.drop_append_of_le_length (by omega)]
      have e5 : xs.length - 100 + 1 = xs.length + 1 - 100 := by omega
      rw [e5]

/-- The line loop of the `get_*_logs` bodies pushes exactly the parseable
lines, in line order. -/
theorem parseLinesLoop_eq_filterMap (parse : String → Option LogEntry)
    (output : String) :
    parseLinesLoop parse output = (rustLines output).filterMap parse := by
  suffices h : ∀ (l : List String) (init : List LogEntry),
      l.foldl (fun logs line =>
        match parse line with
        | some e => logs ++ [e]
        | none => logs) init = init ++ l.filterMap parse by
    simpa [parseLinesLoop] using h (rustLines output) []
  intro l
  induction l with
  | nil => intro init; simp
  | cons line rest ih =>
    intro init
    cases hp : parse line <;>
      simp [List.filterMap_cons, hp, ih, List.append_assoc]

end Sbctool

namespace Sbctool

/-! ## Claim C1 -/

/-- C1 counterexample: the collectors write into the shared buffer with
plain `push` (never through `add_log`), so six successful Android polling
cycles of 20 parsed entries each leave 120 entries in the buffer — the
shared buffer does exceed 100 entries under the collectors' direct write
path, refuting the claim's extension to every write path. -/
theorem C1_counterexample :
    100 < (collect_run android_err_prefix "12:00:00"
        (List.replicate 6 (CycleResult.ok (List.replicate 20
          { timestamp := "t", level := "INFO", message := "m" }))) []).length := by
  decide

/-- C1 (amended): for every sequence of entries appended through the
dashboard's `add_log` operation, the buffer holds at most 100 entries and
equals exactly the most recent 100 appended entries in original relative
order (all of them when 100 or fewer were appended); the collectors' direct
pushes bypass this eviction and are not bounded. -/
theorem C1_add_log_keeps_newest_100 :
    ∀ entries : List LogEntry,
      add_log_all [] entries = entries.drop (entries.length - 100) ∧
      (add_log_all [] entries).length ≤ 100 := by
  intro entries
  refine ⟨add_log_all_drop entries, ?_⟩
  rw [add_log_all_drop entries, List.length_drop]
  omega

/-! ## Claim C5 -/

/-- C5 (confirmed): in every collector loop (the prefixes
`android_err_prefix`, `journald_err_prefix`, `syslog_err_prefix`
instantiate `pre`), a failed cycle appends exactly one synthetic entry,
with level `ERROR` and the collector's message prefix applied to the
failure text, after which the loop keeps processing the rest of the trace;
the buffer grows by exactly `cycle_weight` entries per cycle over every
finite trace of successes and failures — the loop body is total and has no
exit, so no outcome terminates the collector.  (The polling `sleep` between
cycles and the always-succeeding mutex acquisition are abstracted away by
the trace model.) -/
theorem C5_failure_appends_single_error :
    ∀ (pre now e : String) (outs : List CycleResult) (buf : List LogEntry),
      collect_run pre now (outs ++ [CycleResult.err e]) buf =
        collect_run pre now outs buf ++
          [{ timestamp := now, level := "ERROR", message := pre ++ e }] ∧
      (collect_run pre now outs buf).length =
        buf.length + (outs.map cycle_weight).sum := by
  intro pre now e outs buf
  constructor
  · simp [collect_run, List.foldl_append, cycle_step]
  · induction outs generalizing buf with
    | nil => simp [collect_run]
    | cons o rest ih =>
      simp only [collect_run, List.foldl_cons, List.map_cons, List.sum_cons]
      rw [show List.foldl (cycle_step pre now) (cycle_step pre now buf o) rest =
        collect_run pre now rest (cycle_step pre now buf o) from rfl, ih]
      cases o <;> simp [cycle_step, cycle_weight] <;> omega

/-! ## Claim C3 -/

/-- C3 counterexample: given two parseable logcat lines, the Android
collector's batch comes out in reversed order (`logs.reverse()` before
`truncate(20)`), so the appended order is not the command-output line
order. -/
theorem C3_counterexample :
    get_android_logs
        "01-01 00:00:01.000 1 2 I tag: one\n01-01 00:00:02.000 1 2 I tag: two" =
      [{ timestamp := "01-01 00:00:02.000", level := "I", message := "tag: two" },
       { timestamp := "01-01 00:00:01.000", level := "I", message := "tag: one" }] ∧
    (rustLines "01-01 00:00:01.000 1 2 I tag: one\n01-01 00:00:02.000 1 2 I tag: two").filterMap
        parse_android_log_line =
      [{ timestamp := "01-01 00:00:01.000", level := "I", message := "tag: one" },
       { timestamp := "01-01 00:00:02.000", level := "I", message := "tag: two" }] ∧
    get_android_logs
        "01-01 00:00:01.000 1 2 I tag: one\n01-01 00:00:02.000 1 2 I tag: two" ≠
      (rustLines "01-01 00:00:01.000 1 2 I tag: one\n01-01 00:00:02.000 1 2 I tag: two").filterMap
        parse_android_log_line := by
  refine ⟨by decide, by decide, by decide⟩

/-- C3 (amended): the journald and syslog polling loops append their batch
in exactly the order of the parseable lines of the command output — for
syslog, of the output that the executed `tail -n 20 <path>` command, for a
candidate path, actually returned; the Android loop instead appends the
last 20 parseable lines in reversed order. -/
theorem C3_per_collector_append_order :
    (∀ output, get_journald_logs output =
        (rustLines output).filterMap parse_journald_log_line) ∧
    (∀ (exec : String → Except String String) (logs : List LogEntry),
        get_syslog_logs exec = Except.ok logs →
        ∃ path out, path ∈ syslog_paths ∧
          exec ("tail -n 20 " ++ path) = Except.ok out ∧
          logs = (rustLines out).filterMap parse_syslog_line) ∧
    (∀ output, get_android_logs output =
        ((rustLines output).filterMap parse_android_log_line).reverse.take 20) := by
  refine ⟨fun output => parseLinesLoop_eq_filterMap _ _, ?_, fun output => by
    rw [get_android_logs, parseLinesLoop_eq_filterMap]⟩
  intro exec logs h
  suffices hgen : ∀ (paths : List String) (lgs : List LogEntry),
      get_syslog_logs_go exec paths = Except.ok lgs →
      ∃ path out, path ∈ paths ∧
        exec ("tail -n 20 " ++ path) = Except.ok out ∧
        lgs = (rustLines out).filterMap parse_syslog_line from
    hgen syslog_paths logs h
  intro paths
  induction paths with
  | nil => intro lgs h'; simp [get_syslog_logs_go] at h'
  | cons p rest ih =>
    intro lgs h'
    simp only [get_syslog_logs_go] at h'
    split at h'
    · next a heq =>
      obtain ⟨path, out, hmem, hexec, hval⟩ := ih _ h'
      exact ⟨path, out, List.mem_cons_of_mem _ hmem, hexec, hval⟩
    · next o heq =>
      split at h'
      · obtain ⟨path, out, hmem, hexec, hval⟩ := ih _ h'
        exact ⟨path, out, List.mem_cons_of_mem _ hmem, hexec, hval⟩
      · injection h' with h2
        exact ⟨p, o, List.mem_cons_self _ _, heq,
          by rw [← h2, parseLinesLoop_eq_filterMap]⟩

/-- C3 witness: the amended syslog conjunct applied to a concrete oracle
with one available syslog file. -/
theorem C3_witness :
    ∃ path out, path ∈ syslog_paths ∧
      c3_syslog_exec ("tail -n 20 " ++ path) = Except.ok out ∧
      [({ timestamp := "Sep 5 18:49:25", level := "ERROR",
          message := "systemd: error in unit" } : LogEntry)] =
        (rustLines out).filterMap parse_syslog_line :=
  C3_per_collector_append_order.2.1 c3_syslog_exec _ (by rfl)

/-! ## Claim C4 -/

/-- Level chain shared by the journald short-form and syslog parsers:
whatever the message, the result is one of the four keyword levels. -/
theorem keyword_level4_mem (low : String) :
    (if containsStr low "error" then "ERROR"
      else if containsStr low "warn" then "WARN"
      else if containsStr low "info" then "INFO"
      else "DEBUG") ∈ (["ERROR", "WARN", "INFO", "DEBUG"] : List String) := by
  split
  · simp
  · split
    · simp
    · split
      · simp
      · simp

/-- Level chain of the streaming journald parser: always one of the five
levels. -/
theorem keyword_level5_mem (low : String) :
    (if containsStr low "error" || containsStr low "fail" then "ERROR"
      else if containsStr low "warn" || containsStr low "warning" then "WARN"
      else if containsStr low "info" || containsStr low "start" || containsStr low "started" then "INFO"
      else if containsStr low "debug" then "DEBUG"
      else "UNKNOWN") ∈
      (["ERROR", "WARN", "INFO", "DEBUG", "UNKNOWN"] : List String) := by
  split
  · simp
  · split
    · simp
    · split
      · simp
      · split
        · simp
        · simp

/-- C4 counterexample: a logcat line whose priority token is `v` (logcat's
verbose priority) is accepted by `parse_android_log_line`, and the produced
level is the upper-cased token `"V"`, which is none of the five values
`ERROR`/`WARN`/`INFO`/`DEBUG`/`UNKNOWN`. -/
theorem C4_counterexample :
    parse_android_log_line "01-01 00:00:00.000 123 456 v MyTag: verbose boot message" =
      some { timestamp := "01-01 00:00:00.000", level := "V",
             message := "MyTag: verbose boot message" } ∧
    ("V" : String) ∉ (["ERROR", "WARN", "INFO", "DEBUG", "UNKNOWN"] : List String) := by
  refine ⟨by decide, by decide⟩

/-- C4 (amended): the journald short-form and legacy syslog parsers only
ever emit the levels `ERROR`/`WARN`/`INFO`/`DEBUG`, and the streaming
journal parser only `ERROR`/`WARN`/`INFO`/`DEBUG`/`UNKNOWN`; the
logcat-style parser instead copies token 4 upper-cased verbatim as the
level, which lies outside the five-value set whenever the token is not one
of them (e.g. logcat priorities `V`, `F`). -/
theorem C4_parser_level_values :
    (∀ line e, parse_journald_log_line line = some e →
        e.level ∈ (["ERROR", "WARN", "INFO", "DEBUG"] : List String)) ∧
    (∀ line e, parse_syslog_line line = some e →
        e.level ∈ (["ERROR", "WARN", "INFO", "DEBUG"] : List String)) ∧
    (∀ line e, parse_journald_stream_line line = some e →
        e.level ∈ (["ERROR", "WARN", "INFO", "DEBUG", "UNKNOWN"] : List String)) ∧
    (∀ line e, parse_android_log_line line = some e →
        e.level = asciiUpper ((splitWhitespace line).getD 4 "")) := by
  refine ⟨?_, ?_, ?_, ?_⟩
  · intro line e h
    simp only [parse_journald_log_line] at h
    split at h
    · simp at h
    · split at h
      · simp at h
      · injection h with h2
        subst h2
        exact keyword_level4_mem _
  · intro line e h
    simp only [parse_syslog_line] at h
    split at h
    · simp at h
    · injection h with h2
      subst h2
      exact keyword_level4_mem _
  · intro line e h
    simp only [parse_journald_stream_line] at h
    split at h
    · simp at h
    · injection h with h2
      subst h2
      exact keyword_level5_mem _
  · intro line e h
    simp only [parse_android_log_line] at h
    split at h
    · simp at h
    · injection h with h2
      subst h2
      rfl

/-- C4 witness: the journald short-form conjunct applied to a concrete
line. -/
theorem C4_witness :
    ({ timestamp := "ts", level := "DEBUG", message := "msg" } : LogEntry).level ∈
      (["ERROR", "WARN", "INFO", "DEBUG"] : List String) :=
  C4_parser_level_values.1 "ts h x: msg" _ (by rfl)

/-! ## Claim C2 -/

/-- C2 counterexample: the collection is not total.  When the transport
fails, the sequential strategy propagates the `uname -a` failure with `?`
and returns an error; and when `uname -a` succeeds with empty output, the
source's `parts[0]` indexing panics (`none` in the model) — in neither
case does `collect_system_info` return a `SystemInfo` value. -/
theorem C2_counterexample :
    collect_system_info_sequential (fun _ => Except.error "connection refused") =
      some (Except.error "connection refused") ∧
    collect_system_info_sequential (fun _ => Except.ok "") = none := by
  refine ⟨by rfl, by rfl⟩

/-- C2 (amended): the sequential strategy returns a `SystemInfo` value
whenever its `uname -a` and `hostname` probes succeed and the `uname`
output contains at least one whitespace token (with no token, `parts[0]`
panics); in that case every remaining probe degrades on failure (chip to
`none`, the cpu/memory/uptime/os fields to `"Unknown"`) instead of
aborting the collection.  Failure of `uname -a` or `hostname` aborts the
sequential collection with an error.  The batched strategy has no error
channel (per-command failures are replaced by `Error: …` result strings
before parsing) and produces a snapshot whenever its `uname` result — or
its `Error: …` replacement text — has at least one token. -/
theorem C2_collect_failure_handling :
    ∀ (exec : String → Except String String) (u h0 : String),
      exec "uname -a" = Except.ok u →
      exec "hostname" = Except.ok h0 →
      splitWhitespace u ≠ [] →
      (∃ info, collect_system_info_sequential exec = some (Except.ok info)) ∧
      ((∀ c, c ≠ "uname -a" → c ≠ "hostname" → ∀ o, exec c ≠ Except.ok o) →
        collect_system_info_sequential exec = some (Except.ok
          { hostname := rustTrim h0
            kernel :=
              if (splitWhitespace u).length > 2 then
                (splitWhitespace u).getD 0 "" ++ " " ++ (splitWhitespace u).getD 2 ""
              else (splitWhitespace u).getD 0 ""
            architecture :=
              if (splitWhitespace u).length > 12 then (splitWhitespace u).getD 12 ""
              else "unknown"
            chip := none
            cpu_info := "Unknown"
            memory := "Unknown"
            uptime := "Unknown"
            os_info := "Unknown" })) ∧
      (∀ exec2 : String → Except String String,
        splitWhitespace ((execute_multiple_commands exec2 batch_commands).getD 0 "") ≠ [] →
        ∃ info2, collect_system_info true exec2 = some (Except.ok info2)) := by
  intro exec u h0 hu hh hnz
  have herr : (∀ c, c ≠ "uname -a" → c ≠ "hostname" → ∀ o, exec c ≠ Except.ok o) →
      ∀ c, c ≠ "uname -a" → c ≠ "hostname" → ∃ msg, exec c = Except.error msg := by
    intro hfail c h1 h2
    cases hec : exec c with
    | error m => exact ⟨m, rfl⟩
    | ok o => exact absurd hec (hfail c h1 h2 o)
  refine ⟨⟨_, by
    simp only [collect_system_info_sequential, hu, hh]
    rw [if_neg hnz]⟩, ?_, ?_⟩
  · intro hfail
    obtain ⟨m1, e1⟩ := herr hfail "cat /proc/device-tree/model 2>/dev/null"
      (by decide) (by decide)
    obtain ⟨m2, e2⟩ := herr hfail "cat /proc/device-tree/compatible 2>/dev/null"
      (by decide) (by decide)
    obtain ⟨m3, e3⟩ := herr hfail "cat /proc/cpuinfo" (by decide) (by decide)
    obtain ⟨m4, e4⟩ := herr hfail "cat /proc/meminfo" (by decide) (by decide)
    obtain ⟨m5, e5⟩ := herr hfail "cat /proc/uptime" (by decide) (by decide)
    obtain ⟨m6, e6⟩ := herr hfail "cat /etc/os-release" (by decide) (by decide)
    obtain ⟨m7, e7⟩ := herr hfail "cat /etc/lsb-release" (by decide) (by decide)
    obtain ⟨m8, e8⟩ := herr hfail "uname -o" (by decide) (by decide)
    simp only [collect_system_info_sequential, hu, hh]
    rw [if_neg hnz]
    simp only [get_chip_info, get_chip_info_compatible_step, get_chip_info_cpuinfo_step,
      get_os_info, get_os_info_go, os_sources, e1, e2, e3, e4, e5, e6, e7, e8]
  · intro exec2 hnz2
    have hb : ∃ info2, collect_system_info_batch_via exec2 = some info2 := by
      simp only [collect_system_info_batch_via, collect_system_info_batch]
      rw [if_neg hnz2]
      exact ⟨_, rfl⟩
    obtain ⟨info2, hb⟩ := hb
    exact ⟨info2, by simp [collect_system_info, hb]⟩

/-- C2 witness: the amended sequential conjunct applied to an oracle where
only `uname -a` and `hostname` succeed. -/
theorem C2_witness :
    ∃ info, collect_system_info_sequential c2_exec = some (Except.ok info) :=
  (C2_collect_failure_handling c2_exec "Linux sbc1 5.10.0" "sbc1"
    (by rfl) (by rfl) (by decide)).1

/-! ## Claim C6 -/

/-- C6 counterexample: the device-tree model is empty and the `compatible`
string contains both `rockchip` and `rk3588`, yet the resolved label is
`Rockchip RK3399` (the source pattern-matches `rk3399` before `rk3588`),
not the claimed `Rockchip RK3588`. -/
theorem C6_counterexample :
    parse_chip_from_batch_results ""
        "rockchip,rk3399-rockpro64\x00rockchip,rk3588" "" =
      some "Rockchip RK3399" ∧
    containsStr "rockchip,rk3399-rockpro64\x00rockchip,rk3588" "rockchip" = true ∧
    containsStr "rockchip,rk3399-rockpro64\x00rockchip,rk3588" "rk3588" = true ∧
    some "Rockchip RK3399" ≠ some "Rockchip RK3588" := by
  refine ⟨by decide, by decide, by decide, by decide⟩

/-- C6 (amended): the three-tier precedence holds in this refined form:
a device-tree model that is non-empty after trimming and differs from the
probe's `No model` placeholder is returned (trimmed) regardless of the
other inputs; otherwise a usable `compatible` string containing `rockchip`
and `rk3588` — and neither `rk3399` nor `rk3568`, which the source matches
first — yields `Rockchip RK3588`; otherwise the cpuinfo tier maps CPU
implementer `0x41`/`0x42`/`0x51` to `ARM`/`Broadcom`/`Qualcomm` (an earlier
non-empty `Hardware` line other than `BCM2835` would take precedence
within that tier). -/
theorem C6_chip_precedence :
    (∀ model compatible cpuinfo,
        rustTrim model ≠ "" → rustTrim model ≠ "No model" →
        parse_chip_from_batch_results model compatible cpuinfo =
          some (rustTrim model)) ∧
    (∀ model compatible cpuinfo,
        rustTrim model = "" →
        rustTrim compatible ≠ "" → rustTrim compatible ≠ "No compatible" →
        containsStr (replaceCh '\x00' ' ' (rustTrim compatible)) "rockchip" = true →
        containsStr (replaceCh '\x00' ' ' (rustTrim compatible)) "rk3588" = true →
        containsStr (replaceCh '\x00' ' ' (rustTrim compatible)) "rk3399" = false →
        containsStr (replaceCh '\x00' ' ' (rustTrim compatible)) "rk3568" = false →
        parse_chip_from_batch_results model compatible cpuinfo =
          some "Rockchip RK3588") ∧
    (∀ model compatible,
        rustTrim model = "" → rustTrim compatible = "" →
        parse_chip_from_batch_results model compatible "CPU implementer : 0x41" =
            some "ARM" ∧
        parse_chip_from_batch_results model compatible "CPU implementer : 0x42" =
            some "Broadcom" ∧
        parse_chip_from_batch_results model compatible "CPU implementer : 0x51" =
            some "Qualcomm") := by
  refine ⟨?_, ?_, ?_⟩
  · intro model compatible cpuinfo h1 h2
    simp [parse_chip_from_batch_results, h1, h2]
  · intro model compatible cpuinfo hm hc1 hc2 hr1 hr2 hr3 hr4
    simp [parse_chip_from_batch_results, parse_chip_from_compatible,
      hm, hc1, hc2, hr1, hr2, hr3, hr4]
  · intro model compatible hm hc
    refine ⟨?_, ?_, ?_⟩ <;>
      simp [parse_chip_from_batch_results, hm, hc] <;> decide

/-- C6 witness: the three tiers instantiated at the spec's own test
vectors. -/
theorem C6_witness :
    parse_chip_from_batch_results "Rockchip RK3588 Board" "zzz" "www" =
        some (rustTrim "Rockchip RK3588 Board") ∧
    parse_chip_from_batch_results "" "rockchip,rk3588" "" =
        some "Rockchip RK3588" ∧
    parse_chip_from_batch_results "" "" "CPU implementer : 0x41" = some "ARM" :=
  ⟨C6_chip_precedence.1 "Rockchip RK3588 Board" "zzz" "www" (by decide) (by decide),
   C6_chip_precedence.2.1 "" "rockchip,rk3588" "" (by decide) (by decide) (by decide)
     (by decide) (by decide) (by decide) (by decide),
   (C6_chip_precedence.2.2 "" "" (by decide) (by decide)).1⟩

/-! ## String-splitting lemmas for Claim C7 -/

/-- A digit character is not whitespace. -/
theorem digit_not_ws {c : Char} (h : c.isDigit = true) : c.isWhitespace = false := by
  cases hw : c.isWhitespace
  · rfl
  · exfalso
    have hcases : ((c = ' ' ∨ c = '\t') ∨ c = '\r') ∨ c = '\n' := by
      simpa [Char.isWhitespace] using hw
    rcases hcases with ((rfl | rfl) | rfl) | rfl <;> exact absurd h (by decide)

/-- A digit character is not a newline. -/
theorem digit_ne_nl {c : Char} (h : c.isDigit = true) : (c == '\n') = false := by
  cases hb : c == '\n'
  · rfl
  · exfalso
    have : c = '\n' := by simpa using hb
    subst this
    exact absurd h (by decide)

/-- A successful `parse_u64?` certifies a non-empty string of digits with
at most one leading plus sign. -/
theorem parse_u64?_chars {s : String} {n : Nat} (h : parse_u64? s = some n) :
    s.data ≠ [] ∧ ∀ c ∈ s.data, c.isDigit = true ∨ c = '+' := by
  rw [parse_u64?] at h
  split at h
  · next hcond =>
    obtain ⟨hne, hall, -⟩ := hcond
    have hall' := List.all_eq_true.mp hall
    constructor
    · intro hnil
      rw [hnil] at hne
      exact hne rfl
    · intro c hc
      cases hsd : s.data with
      | nil => rw [hsd] at hc; simp at hc
      | cons a rest =>
        rw [hsd] at hc hne hall'
        cases hab : a == '+' with
        | true =>
          have ha : a = '+' := by simpa using hab
          rcases List.mem_cons.mp hc with rfl | hcr
          · exact Or.inr ha
          · refine Or.inl (hall' c ?_)
            simpa [dropLeadPlus, hab] using hcr
        | false =>
          refine Or.inl (hall' c ?_)
          simpa [dropLeadPlus, hab] using hc
  · simp at h

/-- Characters of a parseable `MemTotal` token are not whitespace. -/
theorem memtok_not_ws {c : Char} (h : c.isDigit = true ∨ c = '+') :
    c.isWhitespace = false := by
  rcases h with h | rfl
  · exact digit_not_ws h
  · rfl

/-- Characters of a parseable `MemTotal` token are not newlines. -/
theorem memtok_ne_nl {c : Char} (h : c.isDigit = true ∨ c = '+') :
    (c == '\n') = false := by
  rcases h with h | rfl
  · exact digit_ne_nl h
  · rfl

/-- Splitting on whitespace across a non-whitespace block followed by a
space: the block becomes one token. -/
theorem splitWsAux_sep (ds : List Char) (acc rest : List Char)
    (hds : ∀ c ∈ ds, c.isWhitespace = false) (hne : acc = [] → ds ≠ []) :
    splitWsAux (ds ++ ' ' :: rest) acc = (acc.reverse ++ ds) :: splitWsAux rest [] := by
  induction ds generalizing acc with
  | nil =>
    cases acc with
    | nil => exact absurd rfl (hne rfl)
    | cons a as =>
      show splitWsAux (' ' :: rest) (a :: as) = ((a :: as).reverse ++ []) :: splitWsAux rest []
      simp [splitWsAux, show (' ' : Char).isWhitespace = true from rfl]
  | cons c cs ih =>
    have hc : c.isWhitespace = false := hds c (by simp)
    show splitWsAux (c :: (cs ++ ' ' :: rest)) acc = (acc.reverse ++ c :: cs) :: splitWsAux rest []
    simp only [splitWsAux, hc, Bool.false_eq_true, if_false]
    rw [ih (c :: acc) (fun c' h' => hds c' (List.mem_cons_of_mem _ h')) (by simp)]
    simp [List.append_assoc]

/-- Splitting at a separator that does not occur returns the single
fragment. -/
theorem splitChAux_no_sep (sep : Char) (l acc : List Char)
    (h : ∀ c ∈ l, (c == sep) = false) :
    splitChAux sep l acc = [acc.reverse ++ l] := by
  induction l generalizing acc with
  | nil => simp [splitChAux]
  | cons c cs ih =>
    have hc : (c == sep) = false := h c (by simp)
    simp only [splitChAux, hc, Bool.false_eq_true, if_false]
    rw [ih (c :: acc) (fun c' h' => h c' (List.mem_cons_of_mem _ h'))]
    simp [List.append_assoc]

/-- The last element of a list is a member. -/
theorem getLast?_mem_local : ∀ {l : List Char} {a : Char}, l.getLast? = some a → a ∈ l := by
  intro l
  induction l with
  | nil => intro a h; simp at h
  | cons x xs ih =>
    intro a h
    cases xs with
    | nil =>
      simp [List.getLast?] at h
      simp [h]
    | cons y ys =>
      rw [List.getLast?_cons_cons] at h
      exact List.mem_cons_of_mem _ (ih h)

/-- A newline-free string is a single Rust line. -/
theorem rustLines_no_newline (s : String) (h : ∀ c ∈ s.data, (c == '\n') = false) :
    rustLines s = [s] := by
  have hl : s.data.getLast? ≠ some '\n' := by
    intro hl
    have hm := getLast?_mem_local hl
    have := h '\n' hm
    simp at this
  rw [rustLines, splitChAux_no_sep '\n' s.data [] h]
  rw [if_neg hl]
  rfl

/-- Shape of a one-line meminfo input whose `MemTotal` token consists of
digits and at most a leading plus: it is a single Rust line, it splits
into the three expected tokens, and it starts with `MemTotal`. -/
theorem memtotal_line_shape (s : String) (hne : s.data ≠ [])
    (hch : ∀ c ∈ s.data, c.isDigit = true ∨ c = '+') :
    rustLines ("MemTotal: " ++ s ++ " kB") = ["MemTotal: " ++ s ++ " kB"] ∧
    splitWhitespace ("MemTotal: " ++ s ++ " kB") = ["MemTotal:", s, "kB"] ∧
    rustStartsWith ("MemTotal: " ++ s ++ " kB") "MemTotal" = true := by
  have hdata : ("MemTotal: " ++ s ++ " kB").data =
      'M' :: 'e' :: 'm' :: 'T' :: 'o' :: 't' :: 'a' :: 'l' :: ':' :: ' ' :: (s.data ++ ' ' :: 'k' :: 'B' :: []) := by
    rw [String.data_append, String.data_append, List.append_assoc]
    rfl
  refine ⟨?_, ?_, ?_⟩
  · refine rustLines_no_newline _ ?_
    intro c hc
    rw [hdata] at hc
    simp only [List.mem_cons, List.mem_append, List.not_mem_nil, or_false] at hc
    rcases hc with rfl|rfl|rfl|rfl|rfl|rfl|rfl|rfl|rfl|rfl|hmem|rfl|rfl|rfl <;>
      first
        | rfl
        | exact memtok_ne_nl (hch _ (by assumption))
  · rw [splitWhitespace, hdata]
    have step1 : ∀ X : List Char,
        splitWsAux ('M' :: 'e' :: 'm' :: 'T' :: 'o' :: 't' :: 'a' :: 'l' :: ':' :: ' ' :: X) [] =
          ['M','e','m','T','o','t','a','l',':'] :: splitWsAux X [] := fun X => rfl
    rw [step1,
      splitWsAux_sep s.data [] ('k' :: 'B' :: [])
        (fun c hc => memtok_not_ws (hch c hc)) (fun _ => hne)]
    rfl
  · rw [rustStartsWith, hdata]
    rfl

/-! ## Claim C7 -/

/-- C7 (confirmed): the memory formatter turns the spec's vectors
`MemTotal = 2097152 kB` into `2 GB` and `524288 kB` into `512 MB`; in
general, any `MemTotal` token the program can parse as a `u64` value `kb`
is formatted by `format_mem_kb`, which produces whole gigabytes exactly
when the total reaches 1 GB (`1024*1024` kB) and whole megabytes
otherwise; a digit token beyond `u64::MAX` fails the parse and collapses
to `unwrap_or(0)`, printing `0 MB`. -/
theorem C7_memory_formatting :
    parse_memory_from_meminfo "MemTotal:        2097152 kB" = "2 GB" ∧
    parse_memory_from_meminfo "MemTotal:         524288 kB" = "512 MB" ∧
    (∀ s kb, parse_u64? s = some kb →
        parse_memory_from_meminfo ("MemTotal: " ++ s ++ " kB") = format_mem_kb kb) ∧
    (∀ s, s.data ≠ [] → (∀ c ∈ s.data, c.isDigit = true ∨ c = '+') →
        parse_u64? s = none →
        parse_memory_from_meminfo ("MemTotal: " ++ s ++ " kB") = "0 MB") ∧
    (∀ kb, 0 < kb / 1024 / 1024 ↔ 1024 * 1024 ≤ kb) ∧
    (∀ kb, 1024 * 1024 ≤ kb →
        format_mem_kb kb = toString (kb / 1024 / 1024) ++ " GB") ∧
    (∀ kb, kb < 1024 * 1024 → format_mem_kb kb = toString (kb / 1024) ++ " MB") := by
  refine ⟨by decide, by decide, ?_, ?_, ?_, ?_, ?_⟩
  · intro s kb h
    obtain ⟨hne, hch⟩ := parse_u64?_chars h
    obtain ⟨hlines, hsplit, hstart⟩ := memtotal_line_shape s hne hch
    rw [parse_memory_from_meminfo, hlines]
    have hred : parse_memory_from_meminfo_lines ["MemTotal: " ++ s ++ " kB"] =
        format_mem_kb ((parse_u64? s).getD 0) := by
      simp [parse_memory_from_meminfo_lines, hstart, hsplit]
    rw [hred, h]
    rfl
  · intro s hne hch h
    obtain ⟨hlines, hsplit, hstart⟩ := memtotal_line_shape s hne hch
    rw [parse_memory_from_meminfo, hlines]
    have hred : parse_memory_from_meminfo_lines ["MemTotal: " ++ s ++ " kB"] =
        format_mem_kb ((parse_u64? s).getD 0) := by
      simp [parse_memory_from_meminfo_lines, hstart, hsplit]
    rw [hred, h]
    decide
  · intro kb
    rw [Nat.div_div_eq_div_mul]
    constructor
    · intro hpos
      by_contra hlt
      push_neg at hlt
      rw [Nat.div_eq_of_lt hlt] at hpos
      exact absurd hpos (lt_irrefl 0)
    · intro hle
      exact Nat.div_pos hle (by decide)
  · intro kb hle
    have hgb : 0 < kb / 1024 / 1024 := by
      rw [Nat.div_div_eq_div_mul]
      exact Nat.div_pos hle (by decide)
    rw [format_mem_kb]
    exact if_pos hgb
  · intro kb hlt
    have hgb : kb / 1024 / 1024 = 0 := by
      rw [Nat.div_div_eq_div_mul]
      exact Nat.div_eq_of_lt hlt
    rw [format_mem_kb]
    rw [hgb]
    rfl

/-- C7 witness: the general formatting conjunct instantiated at the spec's
first test vector. -/
theorem C7_witness :
    parse_memory_from_meminfo ("MemTotal: " ++ "2097152" ++ " kB") =
      format_mem_kb 2097152 :=
  C7_memory_formatting.2.2.1 "2097152" 2097152 (by decide)

/-- C7 model check: at a digit token just past `u64::MAX` the parse fails
(matching `parse::<u64>()` overflow) and the formatter prints `0 MB`. -/
theorem parse_u64_overflow_check :
    parse_u64? "18446744073709551616" = none ∧
    parse_u64? "18446744073709551615" = some 18446744073709551615 ∧
    parse_memory_from_meminfo "MemTotal: 18446744073709551616 kB" = "0 MB" := by
  refine ⟨by decide, by decide, by decide⟩

/-! ## Claim C8 -/

/-- C8 (confirmed): the uptime formatter yields `1d 1h 1m` for 90061.5
seconds, `2m` for 125 seconds and `1h 1m` for 3661 seconds (first token of
the proc uptime file), and `format_uptime` drops the day unit when days are
zero and the hour unit when days and hours are both zero.  (The source
computes with `f64`; for these decimal inputs every division, remainder and
truncation is exact, which is what the exact rational model computes.) -/
theorem C8_uptime_formatting :
    parse_uptime_from_proc "90061.5 180122.97" = "1d 1h 1m" ∧
    parse_uptime_from_proc "125 250.32" = "2m" ∧
    parse_uptime_from_proc "3661 7322.00" = "1h 1m" ∧
    (∀ d h m, 0 < d → format_uptime d h m =
        toString d ++ "d " ++ toString h ++ "h " ++ toString m ++ "m") ∧
    (∀ h m, 0 < h → format_uptime 0 h m = toString h ++ "h " ++ toString m ++ "m") ∧
    (∀ m, format_uptime 0 0 m = toString m ++ "m") := by
  refine ⟨by decide, by decide, by decide, ?_, ?_, ?_⟩
  · intro d h m hd
    rw [format_uptime, if_pos hd]
  · intro h m hh
    rw [format_uptime, if_neg (lt_irrefl 0), if_pos hh]
  · intro m
    rw [format_uptime, if_neg (lt_irrefl 0), if_neg (lt_irrefl 0)]

/-- C8 witness: the day-form conjunct instantiated at one day, one hour,
one minute. -/
theorem C8_witness : format_uptime 1 1 1 = "1d 1h 1m" := by
  rw [C8_uptime_formatting.2.2.2.1 1 1 1 (by decide)]
  rfl

/-! ## Claim C9 -/

/-- C9 (confirmed): in the sequential strategy (the batch strategy builds
the same `kernel`/`architecture` expressions from `results[0]`, see
`collect_system_info_batch`), the kernel field concatenates tokens 0 and 2
of the `uname -a` output, the architecture field is token 12 when at least
13 tokens are present and `"unknown"` otherwise, and the hostname is the
trimmed `hostname` output; on the spec's end-to-end vector the collected
snapshot is exactly
`SystemInfo ⟨sbc1, Linux 5.10.0, aarch64, none, Unknown…⟩`. -/
theorem C9_uname_parsing :
    (∀ (exec : String → Except String String) (u h0 : String) (info : SystemInfo),
        exec "uname -a" = Except.ok u →
        exec "hostname" = Except.ok h0 →
        collect_system_info_sequential exec = some (Except.ok info) →
        info.hostname = rustTrim h0 ∧
        ((splitWhitespace u).length > 2 →
          info.kernel =
            (splitWhitespace u).getD 0 "" ++ " " ++ (splitWhitespace u).getD 2 "") ∧
        ((splitWhitespace u).length > 12 →
          info.architecture = (splitWhitespace u).getD 12 "") ∧
        (¬ (splitWhitespace u).length > 12 → info.architecture = "unknown")) ∧
    collect_system_info_sequential c9_exec =
      some (Except.ok
        { hostname := "sbc1", kernel := "Linux 5.10.0",
          architecture := "aarch64", chip := none, cpu_info := "Unknown",
          memory := "Unknown", uptime := "Unknown", os_info := "Unknown" }) := by
  constructor
  · intro exec u h0 info hu hh hc
    simp only [collect_system_info_sequential, hu, hh] at hc
    split at hc
    · simp at hc
    · injection hc with h2
      injection h2 with h3
      subst h3
      refine ⟨rfl, fun hk => ?_, fun ha => ?_, fun ha => ?_⟩
      · exact if_pos hk
      · exact if_pos ha
      · exact if_neg ha
  · rfl

/-- C9 witness: the token-parsing conjunct applied to the end-to-end
oracle. -/
theorem C9_witness :
    ({ hostname := "sbc1", kernel := "Linux 5.10.0", architecture := "aarch64",
       chip := none, cpu_info := "Unknown", memory := "Unknown",
       uptime := "Unknown", os_info := "Unknown" } : SystemInfo).hostname =
      rustTrim "sbc1" :=
  (C9_uname_parsing.1 c9_exec
    "Linux sbc1 5.10.0 #1 SMP PREEMPT Thu Jan 1 00:00:00 UTC 2021 aarch64 GNU/Linux"
    "sbc1" _ (by rfl) (by rfl) C9_uname_parsing.2).1

/-! ## Claim C10 -/

/-- C10 counterexample: with the os-release file absent and a populated
legacy lsb-release file, the batched strategy reports `"Unknown"` while the
three-step chain (followed only by the sequential `get_os_info`) yields the
`DISTRIB_DESCRIPTION` value — the fallback chain does not hold for the
batched strategy. -/
theorem C10_counterexample :
    (collect_system_info_batch_via c10_exec).map (fun info => info.os_info) =
      some "Unknown" ∧
    get_os_info c10_exec = "Ubuntu 22.04 LTS" ∧
    ("Unknown" : String) ≠ "Ubuntu 22.04 LTS" := by
  refine ⟨by rfl, by rfl, by decide⟩

/-- C10 (amended): the sequential strategy's `get_os_info` equals the
three-tier fallback chain — `PRETTY_NAME` from os-release, else
`DISTRIB_DESCRIPTION` from lsb-release, else the trimmed `uname -o`
output, else `"Unknown"`; the batched strategy instead derives its OS
field from the os-release probe alone (`PRETTY_NAME` or `"Unknown"`),
consulting neither fallback — whenever it produces a snapshot at all,
i.e. short of the `parts[0]` uname panic. -/
theorem C10_os_fallback_chain :
    (∀ exec : String → Except String String,
        get_os_info exec =
          ((os_release_tier exec).orElse fun _ =>
            (lsb_release_tier exec).orElse fun _ => uname_o_tier exec).getD "Unknown") ∧
    (∀ out, parse_os_from_release out =
        (find_key_value "PRETTY_NAME" (rustLines out)).getD "Unknown") ∧
    (∀ results, (collect_system_info_batch results).map (fun info => info.os_info) =
        if splitWhitespace (results.getD 0 "") = [] then none
        else some (parse_os_from_release (results.getD 7 ""))) := by
  refine ⟨?_, ?_, fun results => by
    simp only [collect_system_info_batch]
    split <;> rfl⟩
  · intro exec
    cases h1 : exec "cat /etc/os-release" with
    | ok o1 =>
      cases hf1 : find_key_value "PRETTY_NAME" (rustLines o1) with
      | some v =>
        simp [get_os_info, get_os_info_go, os_sources, os_release_tier,
          h1, hf1, Option.orElse]
      | none =>
        cases h2 : exec "cat /etc/lsb-release" with
        | ok o2 =>
          cases hf2 : find_key_value "DISTRIB_DESCRIPTION" (rustLines o2) with
          | some v =>
            simp [get_os_info, get_os_info_go, os_sources, os_release_tier,
              lsb_release_tier, h1, hf1, h2, hf2, Option.orElse]
          | none =>
            cases h3 : exec "uname -o" with
            | ok o3 =>
              simp [get_os_info, get_os_info_go, os_sources, os_release_tier,
                lsb_release_tier, uname_o_tier, h1, hf1, h2, hf2, h3, Option.orElse]
            | error e3 =>
              simp [get_os_info, get_os_info_go, os_sources, os_release_tier,
                lsb_release_tier, uname_o_tier, h1, hf1, h2, hf2, h3, Option.orElse]
        | error e2 =>
          cases h3 : exec "uname -o" with
          | ok o3 =>
            simp [get_os_info, get_os_info_go, os_sources, os_release_tier,
              lsb_release_tier, uname_o_tier, h1, hf1, h2, h3, Option.orElse]
          | error e3 =>
            simp [get_os_info, get_os_info_go, os_sources, os_release_tier,
              lsb_release_tier, uname_o_tier, h1, hf1, h2, h3, Option.orElse]
    | error e1 =>
      cases h2 : exec "cat /etc/lsb-release" with
      | ok o2 =>
        cases hf2 : find_key_value "DISTRIB_DESCRIPTION" (rustLines o2) with
        | some v =>
          simp [get_os_info, get_os_info_go, os_sources, os_release_tier,
            lsb_release_tier, h1, h2, hf2, Option.orElse]
        | none =>
          cases h3 : exec "uname -o" with
          | ok o3 =>
            simp [get_os_info, get_os_info_go, os_sources, os_release_tier,
              lsb_release_tier, uname_o_tier, h1, h2, hf2, h3, Option.orElse]
          | error e3 =>
            simp [get_os_info, get_os_info_go, os_sources, os_release_tier,
              lsb_release_tier, uname_o_tier, h1, h2, hf2, h3, Option.orElse]
      | error e2 =>
        cases h3 : exec "uname -o" with
        | ok o3 =>
          simp [get_os_info, get_os_info_go, os_sources, os_release_tier,
            lsb_release_tier, uname_o_tier, h1, h2, h3, Option.orElse]
        | error e3 =>
          simp [get_os_info, get_os_info_go, os_sources, os_release_tier,
            lsb_release_tier, uname_o_tier, h1, h2, h3, Option.orElse]
  · intro out
    cases hf : find_key_value "PRETTY_NAME" (rustLines out) <;>
      simp [parse_os_from_release, hf]

end Sbctool
